import Mathlib

/-!
# Verification of the dhrender two-pass script compiler (libdhscan)

This file gives a shallow embedding of the core of `src/dhrender.c`:
the literal parser `parseInt`, the declaration store
(`begin_data` / `declare_vert` / `declare_tri` / `check_decl`),
the first pass (`first_pass`: signature check, header parser, counting
scanner, trailing-data check) and the second pass (`second_pass`: the
bounded stack-machine interpreter), together with theorems about them.

The Shastina lexer is an external collaborator of the repository; it is
represented at its interface boundary: a script source is the list of
typed entities the lexer would deliver (each tagged with its line
number), a flag telling whether non-whitespace data trails the `|;`
end-of-file marker, and the line number of that marker.  Reading an
entity past the end of the list models the `SNENTITY_EOF` status; the
negative stream-error statuses of the lexer are not modelled (the
streams considered here are the well-lexed ones).  Machine integers are
modelled as `Int`: every arithmetic operation performed by the C code
on `int32_t` values is overflow-checked by the code itself before it is
executed, so no wraparound is reachable and `Int` is faithful.
-/

/-! ## Constants from dhrender.c -/

def ERR_OK    : Int := 0
def ERR_NOSIG : Int := 1
def ERR_HEADC : Int := 2
def ERR_HEADR : Int := 3
def ERR_HEADS : Int := 4
def ERR_DIM   : Int := 5
def ERR_SHADE : Int := 6
def ERR_NODIM : Int := 7
def ERR_NOSHA : Int := 8
def ERR_STRAY : Int := 9
def ERR_MANYV : Int := 10
def ERR_MANYT : Int := 11
def ERR_SYNC  : Int := 12
def ERR_ETYPE : Int := 13
def ERR_BADOP : Int := 14
def ERR_STREM : Int := 15
def ERR_UNDER : Int := 16
def ERR_OVER  : Int := 17
def ERR_SYNTX : Int := 18
def ERR_ZNEG  : Int := 19
def ERR_VIDX  : Int := 20
def ERR_NUMRL : Int := 21
def ERR_RGBL  : Int := 22

def SHADE_FLAT  : Int := 1
def SHADE_INTER : Int := 2

def MAX_VERTEX : Int := 16384
def MAX_TRIS   : Int := 16384

def MAX_ISTACK : Nat := 32

def INT32_MAX : Int := 2147483647
def INT32_MIN : Int := -2147483648

/-- Modelled from the spec: `SPH_IMAGE_MAXDIM` comes from the external
sophistry header (`width,height ∈ [1, MAXDIM]`); no claim depends on its
exact value, only on the range check being performed against it. -/
def SPH_IMAGE_MAXDIM : Int := 16384

/-- Modelled from the spec: the negative Shastina status with which
`snsource_consume` reports non-whitespace data after the `|;` marker.
Only its sign is fixed by the interface ("any underlying entity-stream
error (negative status)"). -/
def SNERR_TRAILER : Int := -1

/-! ## The entity-stream interface (external Shastina lexer) -/

/-- One entity delivered by the external lexer, as discriminated by the
`ent.status` field of `SNENTITY` in the C code.  `strEnt curly pfx val`
is an `SNENTITY_STRING` whose `str_type` is curly iff `curly`, whose
prefix is `pfx` (the C `pKey`) and whose payload is `val` (the C
`pValue`).  `numeric k` and `operation k` carry the token text in the C
`pKey` field.  `other` stands for the remaining Shastina entity kinds
(variables, groups, arrays, ...) which dhrender.c rejects wholesale. -/
inductive Ent where
  | beginMeta  : Ent
  | endMeta    : Ent
  | metaToken  : String → Ent
  | metaString : Ent
  | strEnt     : Bool → String → String → Ent
  | numeric    : String → Ent
  | operation  : String → Ent
  | other      : Ent
deriving DecidableEq, Repr

/-- An entity together with the line number the parser would report via
`snparser_count` just after reading it. -/
structure SEnt where
  ent  : Ent
  line : Nat
deriving DecidableEq, Repr

/-- A rewindable script source at its interface boundary: the entity
list (in script order, up to but not including the EOF marker), the
line of the `|;` EOF marker, and whether non-whitespace bytes trail the
marker (checked by `snsource_consume`). -/
structure Source where
  ents     : List SEnt
  eofLine  : Nat
  trailing : Bool
deriving DecidableEq, Repr

/-- True for the four metacommand-family entity statuses
(`SNENTITY_BEGIN_META`, `SNENTITY_END_META`, `SNENTITY_META_TOKEN`,
`SNENTITY_META_STRING`). -/
def Ent.isMetaFam : Ent → Bool
  | .beginMeta  => true
  | .endMeta    => true
  | .metaToken _ => true
  | .metaString => true
  | _           => false

/-! ## parseInt (dhrender.c lines 1514-1594) -/

/-- The digit-accumulation loop of `parseInt`: for each character it
checks the digit range, multiplies the accumulator by 10 guarded by
`result <= INT32_MAX / 10`, and adds the digit value guarded by
`result <= INT32_MAX - d`.  `none` models the zero (failure) status. -/
def piLoop : List Char → Int → Option Int
  | [], result => some result
  | ch :: rest, result =>
    if ch < '0' ∨ '9' < ch then none
    else
      let d : Int := (ch.toNat : Int) - ('0'.toNat : Int)
      if result ≤ INT32_MAX / 10 then
        let result := result * 10
        if result ≤ INT32_MAX - d then piLoop rest (result + d)
        else none
      else none

/-- `parseInt` of dhrender.c: a leading `+` is skipped, a leading `-`
is skipped and sets the negation flag, at least one digit must remain
(`*pstr == 0` right after the sign is a failure), then the digit loop
runs and the result is negated under the flag.  `none` models the zero
(failure) return status. -/
def parseInt (s : String) : Option Int :=
  let cs := s.data
  let p : Bool × List Char :=
    if cs.head? = some '+' then (false, cs.tail)
    else if cs.head? = some '-' then (true, cs.tail)
    else (false, cs)
  if p.2 = [] then none
  else
    match piLoop p.2 0 with
    | none => none
    | some result => some (if p.1 then -result else result)

/-! ## The declaration store (dhrender.c lines 227-507)

The C module-level globals `m_init`, `m_vcount`, `m_tcount`,
`m_vwrite`, `m_twrite`, `m_ready`, `m_pv`, `m_pt` become an explicitly
threaded `DStore` value.  The exactly-sized arrays are modelled by the
lists of records written so far (append-only, so the written prefix is
the whole observable content).  A C `abort()` (fatal contract
violation) is modelled by `Option.none` in the operations below. -/

/-- The unified vertex/triangle record `VT_DATA`. -/
structure VT_DATA where
  a : Int
  b : Int
  c : Int
  u : Int
deriving DecidableEq, Repr

/-- The declaration-store state (the `m_` globals of dhrender.c). -/
structure DStore where
  init   : Bool
  vcount : Int
  tcount : Int
  vwrite : Int
  twrite : Int
  ready  : Bool
  pv     : List VT_DATA
  pt     : List VT_DATA
deriving DecidableEq, Repr

/-- `begin_data` (lines 286-327): aborts (`none`) if already
initialized -- which a fresh store never is, so the model takes no
prior store -- or if a count is out of range; otherwise produces the
freshly initialized store. -/
def begin_data (vcount tcount : Int) : Option DStore :=
  if vcount < 0 ∨ MAX_VERTEX < vcount ∨ tcount < 0 ∨ MAX_TRIS < tcount then none
  else some ⟨true, vcount, tcount, 0, 0, false, [], []⟩

/-- `declare_vert` (lines 358-391): aborts (`none`) if the store is not
initialized, `z < 0`, or the color is out of range; otherwise returns
the C result flag (`false` = no more room) and the updated store. -/
def declare_vert (ds : DStore) (x y z c : Int) : Option (Bool × DStore) :=
  if ¬ ds.init then none
  else if z < 0 ∨ c < 0 ∨ 0xffffff < c then none
  else if ds.vwrite < ds.vcount then
    some (true, { ds with pv := ds.pv ++ [⟨x, y, z, c⟩], vwrite := ds.vwrite + 1 })
  else
    some (false, ds)

/-- `declare_tri` (lines 426-462): aborts (`none`) if the store is not
initialized, an index is outside `[0, m_vcount)`, or the color is out
of range; otherwise returns the C result flag and the updated store. -/
def declare_tri (ds : DStore) (i j k c : Int) : Option (Bool × DStore) :=
  if ¬ ds.init then none
  else if i < 0 ∨ ds.vcount ≤ i ∨ j < 0 ∨ ds.vcount ≤ j ∨
          k < 0 ∨ ds.vcount ≤ k ∨ c < 0 ∨ 0xffffff < c then none
  else if ds.twrite < ds.tcount then
    some (true, { ds with pt := ds.pt ++ [⟨i, j, k, c⟩], twrite := ds.twrite + 1 })
  else
    some (false, ds)

/-- `check_decl` (lines 481-507): returns the completion flag and the
store with the `m_ready` cache possibly updated. -/
def check_decl (ds : DStore) : Bool × DStore :=
  if ds.ready then (true, ds)
  else if ds.init then
    if ds.vcount ≤ ds.vwrite then
      if ds.tcount ≤ ds.twrite then (true, { ds with ready := true })
      else (false, ds)
    else (false, ds)
  else (false, ds)

/-! ## First pass (dhrender.c lines 549-873)

`fp_header` embeds the header-metacommand loop (lines 624-771): the
entity list is consumed directly, a `[]` pattern standing for a read
that returns `SNENTITY_EOF` (after which `snparser_count` still reports
the line of the previously read entity).  The returned list is the
stream with the look-ahead entity that ended the loop pushed back, so
that the counting loop can start from it. -/

def fp_cmd (prevLine : Nat) (w h sh : Int) (es : List SEnt) :
    Except (Int × Nat) (Int × Int × Int × List SEnt) :=
  match es with
  | [] => .error (ERR_HEADC, prevLine)
  | t :: es2 =>
    match t.ent with
    | .metaToken key =>
      if key = "dim" then
        if 0 < w ∨ 0 < h then .error (ERR_HEADR, t.line)
        else
          match es2 with
          | [] => .error (ERR_HEADS, t.line)
          | a :: es3 =>
            match a.ent with
            | .metaToken ka =>
              match parseInt ka with
              | none => .error (ERR_HEADS, a.line)
              | some iw =>
                if iw < 1 ∨ SPH_IMAGE_MAXDIM < iw then .error (ERR_DIM, a.line)
                else
                  match es3 with
                  | [] => .error (ERR_HEADS, a.line)
                  | b :: es4 =>
                    match b.ent with
                    | .metaToken kb =>
                      match parseInt kb with
                      | none => .error (ERR_HEADS, b.line)
                      | some ihv =>
                        if ihv < 1 ∨ SPH_IMAGE_MAXDIM < ihv then .error (ERR_DIM, b.line)
                        else
                          match es4 with
                          | [] => .error (ERR_HEADC, b.line)
                          | m :: es5 =>
                            if m.ent = .endMeta then .ok (iw, ihv, sh, es5)
                            else .error (ERR_HEADC, m.line)
                    | _ => .error (ERR_HEADS, b.line)
            | _ => .error (ERR_HEADS, a.line)
      else if key = "shade" then
        if sh ≠ 0 then .error (ERR_HEADR, t.line)
        else
          match es2 with
          | [] => .error (ERR_HEADS, t.line)
          | a :: es3 =>
            match a.ent with
            | .metaToken ka =>
              if ka = "vertex" then
                match es3 with
                | [] => .error (ERR_HEADC, a.line)
                | m :: es4 =>
                  if m.ent = .endMeta then .ok (w, h, SHADE_INTER, es4)
                  else .error (ERR_HEADC, m.line)
              else if ka = "triangle" then
                match es3 with
                | [] => .error (ERR_HEADC, a.line)
                | m :: es4 =>
                  if m.ent = .endMeta then .ok (w, h, SHADE_FLAT, es4)
                  else .error (ERR_HEADC, m.line)
              else .error (ERR_SHADE, a.line)
            | _ => .error (ERR_HEADS, a.line)
      else .error (ERR_HEADC, t.line)
    | _ => .error (ERR_HEADC, t.line)

/-- The header-metacommand loop (lines 624-771): while the next entity
opens a metacommand, process one command via `fp_cmd`; the loop exits
at the first non-`begin-meta` entity, which is pushed back onto the
returned stream so that the counting loop starts from it (in the C the
look-ahead entity is simply still in `ent`). -/
def fp_header (w h sh : Int) (es0 : List SEnt) :
    Except (Int × Nat) (Int × Int × Int × List SEnt) :=
  match es0 with
  | [] => .ok (w, h, sh, [])
  | e :: es =>
    if e.ent = .beginMeta then
      match hc : fp_cmd e.line w h sh es with
      | .error er => .error er
      | .ok (w1, h1, sh1, es1) => fp_header w1 h1 sh1 es1
    else .ok (w, h, sh, e :: es)
termination_by es0.length
decreasing_by
  unfold fp_cmd at hc
  repeat' split at hc
  all_goals first
    | exact (Except.noConfusion hc)
    | (injection hc with hpl
       simp only [Prod.mk.injEq] at hpl
       obtain ⟨rfl, rfl, rfl, rfl⟩ := hpl
       simp
       omega)

/-- The counting-scanner loop of the first pass (lines 795-842): reject
any metacommand-family entity (`ERR_STRAY`), count `v` operations up to
`MAX_VERTEX` and `t` operations up to `MAX_TRIS`, ignore everything
else. -/
def fp_count (vc tc : Int) : List SEnt → Except (Int × Nat) (Int × Int)
  | [] => .ok (vc, tc)
  | e :: rest =>
    if e.ent.isMetaFam then .error (ERR_STRAY, e.line)
    else
      match e.ent with
      | .operation k =>
        if k = "v" then
          if vc < MAX_VERTEX then fp_count (vc + 1) tc rest
          else .error (ERR_MANYV, e.line)
        else if k = "t" then
          if tc < MAX_TRIS then fp_count vc (tc + 1) rest
          else .error (ERR_MANYT, e.line)
        else fp_count vc tc rest
      | _ => fp_count vc tc rest

/-- The `SCRIPT_INFO` structure filled in by the first pass. -/
structure SCRIPT_INFO where
  w      : Int
  h      : Int
  shade  : Int
  vcount : Int
  tcount : Int
deriving DecidableEq, Repr

/-- The all-zero `SCRIPT_INFO` (the result of `memset(psi, 0, ...)`). -/
def zeroInfo : SCRIPT_INFO := ⟨0, 0, 0, 0, 0⟩

/-- Return state of `first_pass`: the C return value, `*psi`, `*perr`
and `*pline`. -/
structure FPResult where
  status : Bool
  psi    : SCRIPT_INFO
  perr   : Int
  pline  : Nat
deriving DecidableEq, Repr

/-- The error-propagating core of `first_pass`: signature check (lines
589-614, `ERR_NOSIG` with no line attached), header loop, the
missing-declaration checks (lines 775-782), the counting loop, and the
`snsource_consume` trailing-data check (lines 846-855). -/
def fp_run (src : Source) : Except (Int × Nat) SCRIPT_INFO :=
  match src.ents with
  | ⟨.beginMeta, _⟩ :: ⟨.metaToken key, _⟩ :: ⟨.endMeta, _⟩ :: rest =>
    if key = "dhrender" then
      match fp_header 0 0 0 rest with
      | .error err => .error err
      | .ok (w, h, sh, body) =>
        if w < 1 ∨ h < 1 then .error (ERR_NODIM, 0)
        else if sh = 0 then .error (ERR_NOSHA, 0)
        else
          match fp_count 0 0 body with
          | .error err => .error err
          | .ok (vc, tc) =>
            if src.trailing then .error (SNERR_TRAILER, src.eofLine)
            else .ok ⟨w, h, sh, vc, tc⟩
    else .error (ERR_NOSIG, 0)
  | _ => .error (ERR_NOSIG, 0)

/-- `first_pass` (lines 549-873).  On failure the info structure is
cleared (the `memset` of lines 866-869). -/
def first_pass (src : Source) : FPResult :=
  match fp_run src with
  | .ok psi => ⟨true, psi, ERR_OK, 0⟩
  | .error (e, ln) => ⟨false, zeroInfo, e, ln⟩

/-! ## Second pass (dhrender.c lines 924-1358)

The interpreter stack `st[MAX_ISTACK]` with its fill count `st_count`
is modelled by a list whose head is the top of the stack (`st.length`
is `st_count`; the C cell `st[st_count - 1 - n]` is element `n` of the
list).  Cells beyond `st_count`, which the C keeps cleared to
`NTYPE_UNDEF`, have no counterpart in the list. -/

/-- A `STACK_NODE`: the `ntype` discriminant with its payload. -/
inductive SNode where
  | undef : SNode
  | intv  : Int → SNode
  | rgb   : Int → SNode
deriving DecidableEq, Repr

/-- `ntype == NTYPE_INT`. -/
def SNode.isInt : SNode → Bool
  | .intv _ => true
  | _ => false

/-- `ntype == NTYPE_RGB`. -/
def SNode.isRgb : SNode → Bool
  | .rgb _ => true
  | _ => false

/-- Union read of `v.ival` / `v.rgb`: both union members are the same
32-bit storage in the C, so either tag yields the stored value (the
interpreter only reads a cell after checking its `ntype`); an undefined
cell holds the zero dummy. -/
def SNode.val : SNode → Int
  | .undef  => 0
  | .intv v => v
  | .rgb v  => v

/-- The hexadecimal-digit test of lines 1008-1011 (written as the
negation of the C rejection condition). -/
def isHexDig (c : Char) : Bool :=
  ¬ ((c < '0' ∨ '9' < c) ∧ (c < 'A' ∨ 'F' < c) ∧ (c < 'a' ∨ 'f' < c))

/-- Numeric value of one hexadecimal digit (for the `sscanf %lx` of
line 1022). -/
def hexDigVal (c : Char) : Nat :=
  if '0' ≤ c ∧ c ≤ '9' then c.toNat - '0'.toNat
  else if 'A' ≤ c ∧ c ≤ 'F' then c.toNat - 'A'.toNat + 10
  else if 'a' ≤ c ∧ c ≤ 'f' then c.toNat - 'a'.toNat + 10
  else 0

/-- The `sscanf(ent.pValue, "%lx", &cv)` read of line 1022: the value
of the payload as an unsigned hexadecimal numeral. -/
def hexVal (s : String) : Int :=
  s.data.foldl (fun acc c => acc * 16 + (hexDigVal c : Int)) 0

/-- Outcome of processing one entity in the second-pass loop: break out
with an error, continue with updated stack and store, or hit a C
`abort()`. -/
inductive StepOut where
  | fail  (err : Int) (line : Nat) : StepOut
  | cont  (st : List SNode) (ds : DStore) : StepOut
  | crash : StepOut
deriving DecidableEq, Repr

/-- The body of the second-pass entity loop (lines 970-1318) for one
entity: metacommand entities are skipped; strings are checked in the
order bare-curly form, stack room, payload length, hex digits; numerics
are checked for stack room and parsed; `v`/`t` operations pop a
shading-mode-dependent operand group. -/
def sp_step (shade vcount : Int) (e : SEnt) (st : List SNode) (ds : DStore) : StepOut :=
  match e.ent with
  | .beginMeta   => .cont st ds
  | .endMeta     => .cont st ds
  | .metaToken _ => .cont st ds
  | .metaString  => .cont st ds
  | .strEnt curly pfx val =>
    if ¬ (curly = true ∧ pfx.length = 0) then .fail ERR_ETYPE e.line
    else if MAX_ISTACK ≤ st.length then .fail ERR_OVER e.line
    else if val.length ≠ 6 then .fail ERR_RGBL e.line
    else if ¬ val.data.all isHexDig then .fail ERR_RGBL e.line
    else .cont (SNode.rgb (hexVal val) :: st) ds
  | .numeric key =>
    if MAX_ISTACK ≤ st.length then .fail ERR_OVER e.line
    else
      match parseInt key with
      | none => .fail ERR_NUMRL e.line
      | some iv => .cont (SNode.intv iv :: st) ds
  | .operation key =>
    if key = "v" then
      if shade = SHADE_INTER then
        if st.length < 4 then .fail ERR_UNDER e.line
        else
          match st with
          | p3 :: p2 :: p1 :: p0 :: tl =>
            if ¬ (p0.isInt ∧ p1.isInt ∧ p2.isInt ∧ p3.isRgb) then .fail ERR_SYNTX e.line
            else if p2.val < 0 then .fail ERR_ZNEG e.line
            else
              match declare_vert ds p0.val p1.val p2.val p3.val with
              | none => .crash
              | some (ok, ds1) => if ok then .cont tl ds1 else .fail ERR_SYNC e.line
          | _ => .fail ERR_UNDER e.line
      else if shade = SHADE_FLAT then
        if st.length < 3 then .fail ERR_UNDER e.line
        else
          match st with
          | p2 :: p1 :: p0 :: tl =>
            if ¬ (p0.isInt ∧ p1.isInt ∧ p2.isInt) then .fail ERR_SYNTX e.line
            else if p2.val < 0 then .fail ERR_ZNEG e.line
            else
              match declare_vert ds p0.val p1.val p2.val 0 with
              | none => .crash
              | some (ok, ds1) => if ok then .cont tl ds1 else .fail ERR_SYNC e.line
          | _ => .fail ERR_UNDER e.line
      else .crash
    else if key = "t" then
      if shade = SHADE_FLAT then
        if st.length < 4 then .fail ERR_UNDER e.line
        else
          match st with
          | p3 :: p2 :: p1 :: p0 :: tl =>
            if ¬ (p0.isInt ∧ p1.isInt ∧ p2.isInt ∧ p3.isRgb) then .fail ERR_SYNTX e.line
            else if p0.val < 0 ∨ vcount ≤ p0.val ∨ p1.val < 0 ∨ vcount ≤ p1.val ∨
                    p2.val < 0 ∨ vcount ≤ p2.val then .fail ERR_VIDX e.line
            else
              match declare_tri ds p0.val p1.val p2.val p3.val with
              | none => .crash
              | some (ok, ds1) => if ok then .cont tl ds1 else .fail ERR_SYNC e.line
          | _ => .fail ERR_UNDER e.line
      else if shade = SHADE_INTER then
        if st.length < 3 then .fail ERR_UNDER e.line
        else
          match st with
          | p2 :: p1 :: p0 :: tl =>
            if ¬ (p0.isInt ∧ p1.isInt ∧ p2.isInt) then .fail ERR_SYNTX e.line
            else if p0.val < 0 ∨ vcount ≤ p0.val ∨ p1.val < 0 ∨ vcount ≤ p1.val ∨
                    p2.val < 0 ∨ vcount ≤ p2.val then .fail ERR_VIDX e.line
            else
              match declare_tri ds p0.val p1.val p2.val 0 with
              | none => .crash
              | some (ok, ds1) => if ok then .cont tl ds1 else .fail ERR_SYNC e.line
          | _ => .fail ERR_UNDER e.line
      else .crash
    else .fail ERR_BADOP e.line
  | .other => .fail ERR_ETYPE e.line

/-- Return state of `second_pass` plus the (in C: global) declaration
store after the call. -/
structure SPResult where
  status : Bool
  perr   : Int
  pline  : Nat
  store  : DStore
deriving DecidableEq, Repr

/-- The second-pass entity loop together with the end-of-stream checks:
`check_decl` must pass (`ERR_SYNC` otherwise, no line attached) and the
stack must be empty (`ERR_STREM`, lines 1331-1345).  `none` models a C
`abort()`. -/
def sp_loop (shade vcount : Int) : List SEnt → List SNode → DStore → Option SPResult
  | [], st, ds =>
    match check_decl ds with
    | (ok, ds1) =>
      if ¬ ok then some ⟨false, ERR_SYNC, 0, ds1⟩
      else if st.length ≠ 0 then some ⟨false, ERR_STREM, 0, ds1⟩
      else some ⟨true, ERR_OK, 0, ds1⟩
  | e :: rest, st, ds =>
    match sp_step shade vcount e st ds with
    | .fail err ln => some ⟨false, err, ln, ds⟩
    | .cont st1 ds1 => sp_loop shade vcount rest st1 ds1
    | .crash => none

/-- `second_pass` (lines 924-1358): the entry shading-mode contract
check (an `abort()`, lines 954-956) followed by the interpreter loop
run on an initially empty stack. -/
def second_pass (src : Source) (shade vcount : Int) (ds : DStore) : Option SPResult :=
  if shade ≠ SHADE_FLAT ∧ shade ≠ SHADE_INTER then none
  else sp_loop shade vcount src.ents [] ds

/-! ## Statement-support definitions -/

/-- Number of operation entities with key `k` in an entity list (used
to relate the pass-1 counters to the operations pass 2 executes). -/
def opCount (k : String) (es : List SEnt) : Nat :=
  es.countP (fun e => decide (e.ent = Ent.operation k))

/-- The declaration-store states reachable through its public
interface: allocation via `begin_data` followed by any sequence of
`declare_vert` / `declare_tri` / `check_decl` calls that does not hit a
fatal `abort()`. -/
inductive Reach : DStore → Prop where
  | alloc (vc tc : Int) (ds : DStore) : begin_data vc tc = some ds → Reach ds
  | dvert (ds : DStore) (x y z c : Int) (b : Bool) (ds1 : DStore) :
      Reach ds → declare_vert ds x y z c = some (b, ds1) → Reach ds1
  | dtri (ds : DStore) (i j k c : Int) (b : Bool) (ds1 : DStore) :
      Reach ds → declare_tri ds i j k c = some (b, ds1) → Reach ds1
  | chk (ds : DStore) : Reach ds → Reach (check_decl ds).2

/-- Value of a most-significant-first digit list continued from an
accumulator (proof support for the `parseInt` round trip). -/
def accDec (ds : List Nat) (acc : Int) : Int :=
  ds.foldl (fun a d => a * 10 + (d : Int)) acc

/-- The ASCII character of a decimal digit. -/
def digitChar (d : Nat) : Char := Char.ofNat ('0'.toNat + d)

/-- The base-10 digits of a natural number, most significant first. -/
def natDigs (n : Nat) : List Nat :=
  if _h : n < 10 then [n] else natDigs (n / 10) ++ [n % 10]
decreasing_by exact Nat.div_lt_self (by omega) (by omega)

/-- Modelled from the spec: the standard decimal rendering of an
`int32` value (the formatting that the spec says `parseInt` inverts;
the repository itself contains no integer formatter). -/
def decFormat (v : Int) : String :=
  if v < 0 then "-" ++ String.mk ((natDigs v.natAbs).map digitChar)
  else String.mk ((natDigs v.natAbs).map digitChar)

/-! Concrete inputs used by the witness theorems below.  `exSrc` is the
worked example of the spec (header `dim 4 4` / `shade triangle`, body
`0 0 0 v 1 0 0 v 0 1 0 v 0 1 2 \x7bff0000\x7d t`). -/

def exB1 : List SEnt :=
  [⟨.numeric "0", 4⟩, ⟨.numeric "0", 4⟩, ⟨.operation "v", 4⟩,
   ⟨.numeric "1", 5⟩, ⟨.numeric "0", 5⟩, ⟨.numeric "0", 5⟩, ⟨.operation "v", 5⟩,
   ⟨.numeric "0", 6⟩, ⟨.numeric "1", 6⟩, ⟨.numeric "0", 6⟩, ⟨.operation "v", 6⟩,
   ⟨.numeric "0", 7⟩, ⟨.numeric "1", 7⟩, ⟨.numeric "2", 7⟩, ⟨.strEnt true "" "ff0000", 7⟩,
   ⟨.operation "t", 7⟩]

/-- The body of `exSrc` (`0 0 0 v 1 0 0 v 0 1 0 v 0 1 2 \x7bff0000\x7d t`). -/
def exB : List SEnt := ⟨.numeric "0", 4⟩ :: exB1

def exSrc : Source :=
  ⟨⟨.beginMeta, 1⟩ :: ⟨.metaToken "dhrender", 1⟩ :: ⟨.endMeta, 1⟩ ::
   ⟨.beginMeta, 2⟩ :: ⟨.metaToken "dim", 2⟩ :: ⟨.metaToken "4", 2⟩ ::
   ⟨.metaToken "4", 2⟩ :: ⟨.endMeta, 2⟩ ::
   ⟨.beginMeta, 3⟩ :: ⟨.metaToken "shade", 3⟩ :: ⟨.metaToken "triangle", 3⟩ ::
   ⟨.endMeta, 3⟩ :: exB, 8, false⟩

/-- The store allocated from the pass-1 counts of `exSrc`. -/
def exDS : DStore := ⟨true, 3, 1, 0, 0, false, [], []⟩

/-- The final state of the example run of `second_pass` on `exSrc`. -/
def exRes : SPResult :=
  ⟨true, 0, 0,
   ⟨true, 3, 1, 3, 1, true,
    [⟨0, 0, 0, 0⟩, ⟨1, 0, 0, 0⟩, ⟨0, 1, 0, 0⟩],
    [⟨0, 1, 2, 16711680⟩]⟩⟩

/-- An initialized empty store used by several witnesses. -/
def wDS : DStore := ⟨true, 0, 0, 0, 0, false, [], []⟩

/-! ## Store lemmas -/

theorem declare_vert_some (ds : DStore) (x y z c : Int) (b : Bool) (ds1 : DStore)
    (h : declare_vert ds x y z c = some (b, ds1)) :
    ds1.init = ds.init ∧ ds1.vcount = ds.vcount ∧ ds1.tcount = ds.tcount ∧
    ds1.twrite = ds.twrite ∧ ds1.ready = ds.ready ∧ ds1.pt = ds.pt ∧
    (b = true → ds1.vwrite = ds.vwrite + 1 ∧ ds.vwrite < ds.vcount) ∧
    (b = false → ds1 = ds) := by
  unfold declare_vert at h
  split_ifs at h with h1 h2 h3
  · obtain ⟨rfl, rfl⟩ := h
    exact ⟨rfl, rfl, rfl, rfl, rfl, rfl, fun _ => ⟨rfl, h3⟩, fun hf => by simp at hf⟩
  · obtain ⟨rfl, rfl⟩ := h
    exact ⟨rfl, rfl, rfl, rfl, rfl, rfl, fun ht => by simp at ht, fun _ => rfl⟩

theorem declare_tri_some (ds : DStore) (i j k c : Int) (b : Bool) (ds1 : DStore)
    (h : declare_tri ds i j k c = some (b, ds1)) :
    ds1.init = ds.init ∧ ds1.vcount = ds.vcount ∧ ds1.tcount = ds.tcount ∧
    ds1.vwrite = ds.vwrite ∧ ds1.ready = ds.ready ∧ ds1.pv = ds.pv ∧
    (b = true → ds1.twrite = ds.twrite + 1 ∧ ds.twrite < ds.tcount) ∧
    (b = false → ds1 = ds) := by
  unfold declare_tri at h
  split_ifs at h with h1 h2 h3
  · obtain ⟨rfl, rfl⟩ := h
    exact ⟨rfl, rfl, rfl, rfl, rfl, rfl, fun _ => ⟨rfl, h3⟩, fun hf => by simp at hf⟩
  · obtain ⟨rfl, rfl⟩ := h
    exact ⟨rfl, rfl, rfl, rfl, rfl, rfl, fun ht => by simp at ht, fun _ => rfl⟩

theorem check_decl_cases (ds : DStore) :
    (check_decl ds).2 = ds ∨
    ((check_decl ds).2 = { ds with ready := true } ∧ ds.init = true ∧
      ds.vcount ≤ ds.vwrite ∧ ds.tcount ≤ ds.twrite) := by
  unfold check_decl
  split_ifs with h1 h2 h3 h4
  · left; rfl
  · right; exact ⟨rfl, h2, h3, h4⟩
  · left; rfl
  · left; rfl
  · left; rfl

theorem Reach_inv (ds : DStore) (h : Reach ds) :
    ds.init = true ∧ 0 ≤ ds.vwrite ∧ ds.vwrite ≤ ds.vcount ∧
    0 ≤ ds.twrite ∧ ds.twrite ≤ ds.tcount ∧
    (ds.ready = true → (ds.vcount ≤ ds.vwrite ∧ ds.tcount ≤ ds.twrite)) := by
  induction h with
  | alloc vc tc ds h =>
    unfold begin_data at h
    split_ifs at h with hc
    obtain rfl := Option.some.inj h
    refine ⟨rfl, le_refl _, ?_, le_refl _, ?_, fun hr => ?_⟩
    · show (0 : Int) ≤ vc
      omega
    · show (0 : Int) ≤ tc
      omega
    · simp at hr
  | dvert ds x y z c b ds1 _hr hd ih =>
    obtain ⟨e1, e2, e3, e4, e5, _e6, ht, hf⟩ := declare_vert_some ds x y z c b ds1 hd
    cases b
    · rw [hf rfl]; exact ih
    · obtain ⟨hw, hlt⟩ := ht rfl
      refine ⟨e1 ▸ ih.1, by omega, by omega, by omega, by omega, fun hr => ?_⟩
      rw [e5] at hr
      have := ih.2.2.2.2.2 hr
      omega
  | dtri ds i j k c b ds1 _hr hd ih =>
    obtain ⟨e1, e2, e3, e4, e5, _e6, ht, hf⟩ := declare_tri_some ds i j k c b ds1 hd
    cases b
    · rw [hf rfl]; exact ih
    · obtain ⟨hw, hlt⟩ := ht rfl
      refine ⟨e1 ▸ ih.1, by omega, by omega, by omega, by omega, fun hr => ?_⟩
      rw [e5] at hr
      have := ih.2.2.2.2.2 hr
      omega
  | chk ds _hr ih =>
    rcases check_decl_cases ds with hcd | ⟨hcd, _hinit, hv, ht⟩
    · rw [hcd]; exact ih
    · rw [hcd]
      exact ⟨ih.1, ih.2.1, ih.2.2.1, ih.2.2.2.1, ih.2.2.2.2.1, fun _ => ⟨hv, ht⟩⟩

/-- Claim C8: in every reachable state of the Declaration Store after
allocation, `check_decl` returns true if and only if the vertex write
cursor equals the vertex capacity and the triangle write cursor equals
the triangle capacity given at allocation.  (The C code tests `>=` and
caches the result in `m_ready`, but in reachable states the cursors
never exceed the capacities and the cache is only set once complete, so
the test coincides with equality.) -/
theorem C8_check_decl_complete_iff (ds : DStore) (h : Reach ds) :
    (check_decl ds).1 = true ↔ (ds.vwrite = ds.vcount ∧ ds.twrite = ds.tcount) := by
  obtain ⟨hinit, hv0, hv1, ht0, ht1, hrd⟩ := Reach_inv ds h
  unfold check_decl
  split_ifs with h1 h2 h3
  · have hge := hrd h1
    exact ⟨fun _ => by omega, fun _ => rfl⟩
  · exact ⟨fun _ => by omega, fun _ => rfl⟩
  · simp only [false_iff]
    rintro ⟨e1, e2⟩
    omega
  · simp only [false_iff]
    rintro ⟨e1, e2⟩
    omega

/-- Witness for C8 at the store freshly allocated with counts (0, 0),
which is complete immediately. -/
theorem C8_witness :
    (check_decl wDS).1 = true ↔ (wDS.vwrite = wDS.vcount ∧ wDS.twrite = wDS.tcount) :=
  C8_check_decl_complete_iff wDS (Reach.alloc 0 0 wDS (by decide))

/-- Claim C9: calling `declare_vert` (resp. `declare_tri`) with valid
parameters on a store whose corresponding write cursor has reached its
capacity returns the C failure flag (zero) and returns the store
entirely unchanged -- cursors and all previously stored records
included (the result carries `ds` itself). -/
theorem C9_declare_at_capacity (ds : DStore) (x y z c i j k : Int)
    (hinit : ds.init = true) (hz : 0 ≤ z) (hc0 : 0 ≤ c) (hc1 : c ≤ 0xffffff)
    (hi : 0 ≤ i) (hi2 : i < ds.vcount) (hj : 0 ≤ j) (hj2 : j < ds.vcount)
    (hk : 0 ≤ k) (hk2 : k < ds.vcount) :
    (ds.vcount ≤ ds.vwrite → declare_vert ds x y z c = some (false, ds)) ∧
    (ds.tcount ≤ ds.twrite → declare_tri ds i j k c = some (false, ds)) := by
  constructor
  · intro hfull
    unfold declare_vert
    rw [if_neg (by simp [hinit]), if_neg (by omega), if_neg (by omega)]
  · intro hfull
    unfold declare_tri
    rw [if_neg (by simp [hinit]), if_neg (by omega), if_neg (by omega)]

/-- Witness for C9: a store with one declared vertex (capacity one) and
triangle capacity zero; both declarations are rejected without change. -/
theorem C9_witness :
    declare_vert ⟨true, 1, 0, 1, 0, false, [⟨5, 6, 0, 7⟩], []⟩ 1 2 3 4
        = some (false, ⟨true, 1, 0, 1, 0, false, [⟨5, 6, 0, 7⟩], []⟩) ∧
    declare_tri ⟨true, 1, 0, 1, 0, false, [⟨5, 6, 0, 7⟩], []⟩ 0 0 0 9
        = some (false, ⟨true, 1, 0, 1, 0, false, [⟨5, 6, 0, 7⟩], []⟩) := by
  have h := C9_declare_at_capacity ⟨true, 1, 0, 1, 0, false, [⟨5, 6, 0, 7⟩], []⟩
    1 2 3 4 0 0 0 rfl (by decide) (by decide) (by decide) (by decide) (by decide)
    (by decide) (by decide) (by decide) (by decide)
  exact ⟨h.1 (by decide), h.2 (by decide)⟩

/-! ## First-pass error lemmas -/

theorem fp_cmd_error_pos (pl : Nat) (w h sh : Int) (es : List SEnt) (er : Int × Nat)
    (hc : fp_cmd pl w h sh es = .error er) : 0 < er.1 := by
  unfold fp_cmd at hc
  repeat' split at hc
  all_goals first
    | exact (Except.noConfusion hc)
    | (injection hc with hpl; cases hpl;
       norm_num [ERR_HEADC, ERR_HEADR, ERR_HEADS, ERR_DIM, ERR_SHADE])

theorem fp_header_error_pos : ∀ (w h sh : Int) (es : List SEnt) (er : Int × Nat),
    fp_header w h sh es = .error er → 0 < er.1 := by
  intro w h sh es
  induction w, h, sh, es using fp_header.induct with
  | case1 w h sh =>
    intro er hh; rw [fp_header] at hh; exact (Except.noConfusion hh)
  | case2 w h sh m es5 hm er2 hcmd =>
    intro er hh
    rw [fp_header, if_pos hm] at hh
    split at hh
    · rename_i er3 heq
      injection hh with hpl
      cases hpl
      exact fp_cmd_error_pos _ _ _ _ _ _ heq
    · rename_i w2 h2 sh2 es2 heq
      rw [hcmd] at heq
      exact (Except.noConfusion heq)
  | case3 w h sh m es5 hm w1 h1 sh1 es1 hcmd ih =>
    intro er hh
    rw [fp_header, if_pos hm] at hh
    split at hh
    · rename_i er3 heq
      rw [hcmd] at heq
      exact (Except.noConfusion heq)
    · rename_i w2 h2 sh2 es2 heq
      rw [hcmd] at heq
      injection heq with hpl
      simp only [Prod.mk.injEq] at hpl
      obtain ⟨rfl, rfl, rfl, rfl⟩ := hpl
      exact ih er hh
  | case4 w h sh m es5 hm =>
    intro er hh
    rw [fp_header, if_neg hm] at hh
    exact (Except.noConfusion hh)

theorem fp_count_error_pos : ∀ (vc tc : Int) (es : List SEnt) (er : Int × Nat),
    fp_count vc tc es = .error er → 0 < er.1 := by
  intro vc tc es
  induction vc, tc, es using fp_count.induct with
  | case1 vc tc =>
    intro er hh; rw [fp_count] at hh; exact (Except.noConfusion hh)
  | case2 vc tc m es5 hm =>
    intro er hh
    rw [fp_count, if_pos hm] at hh
    injection hh with hpl
    cases hpl
    norm_num [ERR_STRAY]
  | case3 vc tc m es5 hm hlt hop ih =>
    intro er hh
    rw [fp_count, if_neg hm] at hh
    simp only [hop, if_pos hlt] at hh
    exact ih er hh
  | case4 vc tc m es5 hm hnlt hop =>
    intro er hh
    rw [fp_count, if_neg hm] at hh
    simp only [hop, if_neg hnlt] at hh
    injection hh with hpl
    cases hpl
    norm_num [ERR_MANYV]
  | case5 vc tc m es5 hm hlt hop hne ih =>
    intro er hh
    rw [fp_count, if_neg hm] at hh
    simp only [hop, if_neg hne, if_pos hlt] at hh
    exact ih er hh
  | case6 vc tc m es5 hm hnlt hop hne =>
    intro er hh
    rw [fp_count, if_neg hm] at hh
    simp only [hop, if_neg hne, if_neg hnlt] at hh
    injection hh with hpl
    cases hpl
    norm_num [ERR_MANYT]
  | case7 vc tc m es5 hm k hop hkv hkt ih =>
    intro er hh
    rw [fp_count, if_neg hm] at hh
    simp only [hop, if_neg hkv, if_neg hkt] at hh
    exact ih er hh
  | case8 vc tc m es5 hm hnop ih =>
    intro er hh
    rw [fp_count, if_neg hm] at hh
    cases hme : m.ent
    all_goals rw [hme] at hh
    all_goals first
      | (exact (hnop _ hme).elim)
      | (exact ih er hh)
      | (simp [Ent.isMetaFam, hme] at hm)

theorem fp_run_error_nonzero (src : Source) (er : Int × Nat)
    (h : fp_run src = .error er) : er.1 ≠ 0 := by
  unfold fp_run at h
  repeat' split at h
  all_goals try exact (Except.noConfusion h)
  all_goals injection h with hpl
  all_goals cases hpl
  all_goals try norm_num [ERR_NOSIG, ERR_NODIM, ERR_NOSHA, SNERR_TRAILER]
  all_goals rename_i heq
  · have hp := fp_header_error_pos _ _ _ _ _ heq
    omega
  · have hp := fp_count_error_pos _ _ _ _ heq
    omega

/-- Claim C10: whenever `first_pass` returns failure, the `SCRIPT_INFO`
output structure is entirely zeroed (the `memset` of lines 866-869 of
dhrender.c runs on every failure path, not leaving partially assigned
fields behind) and the error code output is nonzero (every internally
raised code is a positive `ERR_` constant and the trailing-data check
surfaces a negative stream status). -/
theorem C10_first_pass_failure_state (src : Source)
    (h : (first_pass src).status = false) :
    (first_pass src).psi = zeroInfo ∧ (first_pass src).perr ≠ 0 := by
  unfold first_pass at *
  cases hr : fp_run src with
  | ok psi => rw [hr] at h; simp at h
  | error er =>
    obtain ⟨e, ln⟩ := er
    exact ⟨rfl, fp_run_error_nonzero src (e, ln) hr⟩

/-- Witness for C10: the empty source fails (`NoSignature`) with a
cleared info structure and error code 1. -/
theorem C10_witness :
    (first_pass ⟨[], 0, false⟩).status = false ∧
    ((first_pass ⟨[], 0, false⟩).psi = zeroInfo ∧ (first_pass ⟨[], 0, false⟩).perr ≠ 0) :=
  ⟨by decide, C10_first_pass_failure_state ⟨[], 0, false⟩ (by decide)⟩

/-! ## fp_header rewriting lemmas -/

theorem fp_header_nil (w h sh : Int) : fp_header w h sh [] = .ok (w, h, sh, []) := by
  rw [fp_header]

theorem fp_header_exit (w h sh : Int) (e : SEnt) (es : List SEnt)
    (hm : ¬ e.ent = .beginMeta) :
    fp_header w h sh (e :: es) = .ok (w, h, sh, e :: es) := by
  rw [fp_header, if_neg hm]

theorem fp_header_cons_ok (w h sh w1 h1 sh1 : Int) (e : SEnt) (es es1 : List SEnt)
    (hm : e.ent = .beginMeta) (hc : fp_cmd e.line w h sh es = .ok (w1, h1, sh1, es1)) :
    fp_header w h sh (e :: es) = fp_header w1 h1 sh1 es1 := by
  rw [fp_header, if_pos hm]
  split
  · rename_i er heq
    rw [hc] at heq
    exact (Except.noConfusion heq)
  · rename_i w2 h2 sh2 es2 heq
    rw [hc] at heq
    injection heq with hpl
    simp only [Prod.mk.injEq] at hpl
    obtain ⟨rfl, rfl, rfl, rfl⟩ := hpl
    rfl

theorem fp_header_cons_err (w h sh : Int) (er : Int × Nat) (e : SEnt) (es : List SEnt)
    (hm : e.ent = .beginMeta) (hc : fp_cmd e.line w h sh es = .error er) :
    fp_header w h sh (e :: es) = .error er := by
  rw [fp_header, if_pos hm]
  split
  · rename_i er2 heq
    rw [hc] at heq
    injection heq with hpl
    rw [hpl]
  · rename_i w2 h2 sh2 es2 heq
    rw [hc] at heq
    exact (Except.noConfusion heq)

theorem first_pass_exSrc : first_pass exSrc = ⟨true, ⟨4, 4, 1, 3, 1⟩, 0, 0⟩ := by
  have hc1 : fp_cmd 2 0 0 0
      (⟨.metaToken "dim", 2⟩ :: ⟨.metaToken "4", 2⟩ :: ⟨.metaToken "4", 2⟩ :: ⟨.endMeta, 2⟩ ::
       ⟨.beginMeta, 3⟩ :: ⟨.metaToken "shade", 3⟩ :: ⟨.metaToken "triangle", 3⟩ ::
       ⟨.endMeta, 3⟩ :: exB)
      = .ok (4, 4, 0,
        ⟨.beginMeta, 3⟩ :: ⟨.metaToken "shade", 3⟩ :: ⟨.metaToken "triangle", 3⟩ ::
        ⟨.endMeta, 3⟩ :: exB) := by rfl
  have hc2 : fp_cmd 3 4 4 0
      (⟨.metaToken "shade", 3⟩ :: ⟨.metaToken "triangle", 3⟩ :: ⟨.endMeta, 3⟩ :: exB)
      = .ok (4, 4, 1, exB) := by rfl
  have h3 : fp_header 4 4 1 exB = .ok (4, 4, 1, exB) :=
    fp_header_exit 4 4 1 ⟨.numeric "0", 4⟩ exB1 (by decide)
  have hcount : fp_count 0 0 exB = .ok (3, 1) := by rfl
  have hfull : fp_header 0 0 0
      (⟨.beginMeta, 2⟩ :: ⟨.metaToken "dim", 2⟩ :: ⟨.metaToken "4", 2⟩ ::
       ⟨.metaToken "4", 2⟩ :: ⟨.endMeta, 2⟩ ::
       ⟨.beginMeta, 3⟩ :: ⟨.metaToken "shade", 3⟩ :: ⟨.metaToken "triangle", 3⟩ ::
       ⟨.endMeta, 3⟩ :: exB) = .ok (4, 4, 1, exB) := by
    rw [fp_header_cons_ok 0 0 0 4 4 0 ⟨.beginMeta, 2⟩ _ _ rfl hc1,
        fp_header_cons_ok 4 4 0 4 4 1 ⟨.beginMeta, 3⟩ _ _ rfl hc2]
    exact h3
  simp only [first_pass, fp_run, exSrc, if_true, hfull, hcount]
  rfl

/-- Claim C7 counterexample: the claim as stated predicts
`UnrecognizedShadingMode` whenever what follows `shade` is not the
token `vertex` and not the token `triangle`; but when the metacommand
simply ends (`@shade;` -- what follows is the end-metacommand entity,
which is neither of those tokens, and `shade` has not been seen
before), the code fails with `ERR_HEADS` (HeaderSyntax), not
`ERR_SHADE` (UnrecognizedShadingMode). -/
theorem C7_counterexample :
    first_pass ⟨[⟨.beginMeta, 1⟩, ⟨.metaToken "dhrender", 1⟩, ⟨.endMeta, 1⟩,
                 ⟨.beginMeta, 2⟩, ⟨.metaToken "shade", 2⟩, ⟨.endMeta, 2⟩], 3, false⟩
      = ⟨false, zeroInfo, ERR_HEADS, 2⟩ ∧ ERR_HEADS ≠ ERR_SHADE := by
  constructor
  · have hc : fp_cmd 2 0 0 0 [⟨.metaToken "shade", 2⟩, ⟨.endMeta, 2⟩]
        = .error (ERR_HEADS, 2) := by rfl
    have hh := fp_header_cons_err 0 0 0 (ERR_HEADS, 2) ⟨.beginMeta, 2⟩
      [⟨.metaToken "shade", 2⟩, ⟨.endMeta, 2⟩] rfl hc
    simp only [first_pass, fp_run, if_true, hh]
  · decide

/-- Claim C7 (amended): for a `shade` metacommand not seen before
(`sh = 0`), when the entity following `shade` is a metacommand token
other than `vertex` or `triangle` the Header Parser fails with
`UnrecognizedShadingMode` at that token's line; when the following
entity is not a metacommand token at all (e.g. the end of the
metacommand), the failure is `HeaderSyntax` instead -- that is the only
change the counterexample forces. -/
theorem C7_shade_mode_errors (w h : Int) (pl lt la : Nat) (ka : String) (aent : Ent)
    (es : List SEnt) :
    (ka ≠ "vertex" → ka ≠ "triangle" →
       fp_cmd pl w h 0 (⟨.metaToken "shade", lt⟩ :: ⟨.metaToken ka, la⟩ :: es)
         = .error (ERR_SHADE, la)) ∧
    ((∀ k, aent ≠ .metaToken k) →
       fp_cmd pl w h 0 (⟨.metaToken "shade", lt⟩ :: ⟨aent, la⟩ :: es)
         = .error (ERR_HEADS, la)) := by
  constructor
  · intro h1 h2
    unfold fp_cmd
    simp [h1, h2]
  · intro hnt
    unfold fp_cmd
    cases aent
    all_goals first
      | (exact (hnt _ rfl).elim)
      | simp

/-- Witness for C7: `shade` followed by the token `flat` gives
`UnrecognizedShadingMode` at that token's line. -/
theorem C7_witness :
    fp_cmd 9 0 0 0 (⟨.metaToken "shade", 4⟩ :: ⟨.metaToken "flat", 5⟩ :: [])
      = .error (ERR_SHADE, 5) :=
  (C7_shade_mode_errors 0 0 9 4 5 "flat" Ent.endMeta []).1 (by decide) (by decide)

/-- Claim C6 counterexample: the claim says a bare no-prefix curly
string whose payload is not exactly 6 hex digits fails with
`InvalidRgbLiteral` regardless of the stack contents, and that
`StackOverflow` occurs only when the payload is valid; but with the
stack already holding 32 elements and the invalid payload "GG", a full
`second_pass` run reports `ERR_OVER` (StackOverflow), not `ERR_RGBL`
(InvalidRgbLiteral): the overflow check precedes payload validation
(dhrender.c lines 988-1018). -/
theorem C6_counterexample :
    second_pass ⟨List.replicate 32 ⟨.numeric "7", 1⟩ ++ [⟨.strEnt true "" "GG", 2⟩], 3, false⟩
        SHADE_FLAT 0 wDS
      = some ⟨false, ERR_OVER, 2, wDS⟩ ∧ ERR_OVER ≠ ERR_RGBL := by
  constructor
  · decide
  · decide


/-- Claim C6 (amended): for a bare no-prefix curly string entity, the
checks are ordered: with the stack at capacity (32) the failure is
`StackOverflow` regardless of the payload; below capacity, a payload
that is not exactly 6 hexadecimal digits fails with `InvalidRgbLiteral`
and a valid payload is parsed and pushed as `RgbColor`. -/
theorem C6_string_literal_checks (shade vcount : Int) (pfx val : String) (curly : Bool)
    (ln : Nat) (st : List SNode) (ds : DStore) (hform : curly = true ∧ pfx.length = 0) :
    (MAX_ISTACK ≤ st.length →
       sp_step shade vcount ⟨.strEnt curly pfx val, ln⟩ st ds = .fail ERR_OVER ln) ∧
    (st.length < MAX_ISTACK → ¬ (val.length = 6 ∧ val.data.all isHexDig = true) →
       sp_step shade vcount ⟨.strEnt curly pfx val, ln⟩ st ds = .fail ERR_RGBL ln) ∧
    (st.length < MAX_ISTACK → val.length = 6 → val.data.all isHexDig = true →
       sp_step shade vcount ⟨.strEnt curly pfx val, ln⟩ st ds
         = .cont (SNode.rgb (hexVal val) :: st) ds) := by
  obtain ⟨rfl, hpfx⟩ := hform
  refine ⟨?_, ?_, ?_⟩
  · intro hfull
    simp only [sp_step]
    rw [if_neg (by simp [hpfx]), if_pos hfull]
  · intro hroom hbad
    simp only [sp_step]
    rw [if_neg (by simp [hpfx]), if_neg (by omega)]
    by_cases h6 : val.length = 6
    · rw [if_neg (by omega), if_pos (by simp_all)]
    · rw [if_pos h6]
  · intro hroom h6 hhex
    simp only [sp_step]
    rw [if_neg (by simp [hpfx]), if_neg (by omega), if_neg (by omega),
        if_neg (by simp [hhex])]


/-- Witness for C6: with an empty stack, the 3-character payload "xyz"
fails with `InvalidRgbLiteral`. -/
theorem C6_witness :
    sp_step SHADE_FLAT 0 ⟨.strEnt true "" "xyz", 4⟩ [] wDS = .fail ERR_RGBL 4 :=
  (C6_string_literal_checks SHADE_FLAT 0 "" "xyz" true 4 [] wDS
    (by decide)).2.1 (by decide) (by decide)

/-- Claim C3: for a `t` operation whose three index operands are
correctly typed integers (under either shading mode), the interpreter
fails with `InvalidVertexIndex` exactly when some index is negative or
at least the pass-1 `vcount`; with all indices in `[0, vcount)` the
range check passes and the step can only fail with a different error
(`SyncMismatch`).  The bound is the `vcount` parameter handed to
`second_pass` (the pass-1 total): the store `ds` -- and so the number
of vertices declared so far -- is universally quantified here, which is
exactly the legality of forward references. -/
theorem C3_triangle_index_range (vcount i j k col : Int) (ln : Nat)
    (tl : List SNode) (ds : DStore) :
    ((i < 0 ∨ vcount ≤ i ∨ j < 0 ∨ vcount ≤ j ∨ k < 0 ∨ vcount ≤ k) →
       sp_step SHADE_FLAT vcount ⟨.operation "t", ln⟩
         (SNode.rgb col :: SNode.intv k :: SNode.intv j :: SNode.intv i :: tl) ds
         = .fail ERR_VIDX ln) ∧
    ((0 ≤ i ∧ i < vcount ∧ 0 ≤ j ∧ j < vcount ∧ 0 ≤ k ∧ k < vcount) →
       ∀ e l, sp_step SHADE_FLAT vcount ⟨.operation "t", ln⟩
         (SNode.rgb col :: SNode.intv k :: SNode.intv j :: SNode.intv i :: tl) ds
           = .fail e l → e ≠ ERR_VIDX) ∧
    ((i < 0 ∨ vcount ≤ i ∨ j < 0 ∨ vcount ≤ j ∨ k < 0 ∨ vcount ≤ k) →
       sp_step SHADE_INTER vcount ⟨.operation "t", ln⟩
         (SNode.intv k :: SNode.intv j :: SNode.intv i :: tl) ds
         = .fail ERR_VIDX ln) ∧
    ((0 ≤ i ∧ i < vcount ∧ 0 ≤ j ∧ j < vcount ∧ 0 ≤ k ∧ k < vcount) →
       ∀ e l, sp_step SHADE_INTER vcount ⟨.operation "t", ln⟩
         (SNode.intv k :: SNode.intv j :: SNode.intv i :: tl) ds
           = .fail e l → e ≠ ERR_VIDX) := by
  refine ⟨?_, ?_, ?_, ?_⟩
  · intro hout
    simp [sp_step, SNode.isInt, SNode.isRgb, SNode.val, SHADE_FLAT, SHADE_INTER]
    rw [if_neg (by omega)]
    split
    · rfl
    · exfalso; omega
  · intro hin e l hstep
    simp [sp_step, SNode.isInt, SNode.isRgb, SNode.val, SHADE_FLAT, SHADE_INTER] at hstep
    rw [if_neg (by omega), if_neg (by omega)] at hstep
    rcases hd : declare_tri ds i j k col with _ | ⟨b, ds1⟩
    · rw [hd] at hstep; exact (StepOut.noConfusion hstep)
    · rw [hd] at hstep
      cases b
      · injection hstep with h1 h2
        subst h1
        decide
      · exact (StepOut.noConfusion hstep)
  · intro hout
    simp [sp_step, SNode.isInt, SNode.isRgb, SNode.val, SHADE_FLAT, SHADE_INTER]
    rw [if_neg (by omega)]
    split
    · rfl
    · exfalso; omega
  · intro hin e l hstep
    simp [sp_step, SNode.isInt, SNode.isRgb, SNode.val, SHADE_FLAT, SHADE_INTER] at hstep
    rw [if_neg (by omega), if_neg (by omega)] at hstep
    rcases hd : declare_tri ds i j k 0 with _ | ⟨b, ds1⟩
    · rw [hd] at hstep; exact (StepOut.noConfusion hstep)
    · rw [hd] at hstep
      cases b
      · injection hstep with h1 h2
        subst h1
        decide
      · exact (StepOut.noConfusion hstep)

/-- Witness for C3: with `vcount = 1`, the triangle (1,1,1) -- index
equal to `vcount` -- is rejected with `InvalidVertexIndex`. -/
theorem C3_witness :
    sp_step SHADE_FLAT 1 ⟨.operation "t", 6⟩
      (SNode.rgb 0 :: SNode.intv 1 :: SNode.intv 1 :: SNode.intv 1 :: []) wDS
      = .fail ERR_VIDX 6 :=
  (C3_triangle_index_range 1 1 1 1 0 6 [] wDS).1 (by decide)

/-- Claim C4: operand arity and types for `v` and `t` are swapped
between the shading modes.  Under Interpolated shading `v` requires 4
operands typed (Integer, Integer, Integer, RgbColor) used as
(x, y, z, color), and `t` requires 3 Integers with the color defaulted
to 0; under Flat shading `v` requires 3 Integers with color 0 and `t`
requires (Integer, Integer, Integer, RgbColor) as (i, j, k, color).
Fewer operands than the arity gives `StackUnderflow`; a wrong type at a
required position gives `OperationSyntaxError`; with the checks passed
the operand group is popped (the stack continues as `tl`) and forwarded
to the matching Declaration Store writer. -/
theorem C4_operand_arity_types (vcount : Int) (ln : Nat) (ds : DStore) :
    (∀ st : List SNode, st.length < 4 →
       sp_step SHADE_INTER vcount ⟨.operation "v", ln⟩ st ds = .fail ERR_UNDER ln) ∧
    (∀ st : List SNode, st.length < 3 →
       sp_step SHADE_FLAT vcount ⟨.operation "v", ln⟩ st ds = .fail ERR_UNDER ln) ∧
    (∀ st : List SNode, st.length < 4 →
       sp_step SHADE_FLAT vcount ⟨.operation "t", ln⟩ st ds = .fail ERR_UNDER ln) ∧
    (∀ st : List SNode, st.length < 3 →
       sp_step SHADE_INTER vcount ⟨.operation "t", ln⟩ st ds = .fail ERR_UNDER ln) ∧
    (∀ p3 p2 p1 p0 : SNode, ∀ tl : List SNode,
       ¬ (p0.isInt = true ∧ p1.isInt = true ∧ p2.isInt = true ∧ p3.isRgb = true) →
       sp_step SHADE_INTER vcount ⟨.operation "v", ln⟩ (p3 :: p2 :: p1 :: p0 :: tl) ds
         = .fail ERR_SYNTX ln) ∧
    (∀ p2 p1 p0 : SNode, ∀ tl : List SNode,
       ¬ (p0.isInt = true ∧ p1.isInt = true ∧ p2.isInt = true) →
       sp_step SHADE_FLAT vcount ⟨.operation "v", ln⟩ (p2 :: p1 :: p0 :: tl) ds
         = .fail ERR_SYNTX ln) ∧
    (∀ p3 p2 p1 p0 : SNode, ∀ tl : List SNode,
       ¬ (p0.isInt = true ∧ p1.isInt = true ∧ p2.isInt = true ∧ p3.isRgb = true) →
       sp_step SHADE_FLAT vcount ⟨.operation "t", ln⟩ (p3 :: p2 :: p1 :: p0 :: tl) ds
         = .fail ERR_SYNTX ln) ∧
    (∀ p2 p1 p0 : SNode, ∀ tl : List SNode,
       ¬ (p0.isInt = true ∧ p1.isInt = true ∧ p2.isInt = true) →
       sp_step SHADE_INTER vcount ⟨.operation "t", ln⟩ (p2 :: p1 :: p0 :: tl) ds
         = .fail ERR_SYNTX ln) ∧
    (∀ x y z c : Int, ∀ tl : List SNode, ∀ r : Bool × DStore, 0 ≤ z →
       declare_vert ds x y z c = some r →
       sp_step SHADE_INTER vcount ⟨.operation "v", ln⟩
         (SNode.rgb c :: SNode.intv z :: SNode.intv y :: SNode.intv x :: tl) ds
         = (if r.1 then .cont tl r.2 else .fail ERR_SYNC ln)) ∧
    (∀ x y z : Int, ∀ tl : List SNode, ∀ r : Bool × DStore, 0 ≤ z →
       declare_vert ds x y z 0 = some r →
       sp_step SHADE_FLAT vcount ⟨.operation "v", ln⟩
         (SNode.intv z :: SNode.intv y :: SNode.intv x :: tl) ds
         = (if r.1 then .cont tl r.2 else .fail ERR_SYNC ln)) ∧
    (∀ i j k c : Int, ∀ tl : List SNode, ∀ r : Bool × DStore,
       (0 ≤ i ∧ i < vcount ∧ 0 ≤ j ∧ j < vcount ∧ 0 ≤ k ∧ k < vcount) →
       declare_tri ds i j k c = some r →
       sp_step SHADE_FLAT vcount ⟨.operation "t", ln⟩
         (SNode.rgb c :: SNode.intv k :: SNode.intv j :: SNode.intv i :: tl) ds
         = (if r.1 then .cont tl r.2 else .fail ERR_SYNC ln)) ∧
    (∀ i j k : Int, ∀ tl : List SNode, ∀ r : Bool × DStore,
       (0 ≤ i ∧ i < vcount ∧ 0 ≤ j ∧ j < vcount ∧ 0 ≤ k ∧ k < vcount) →
       declare_tri ds i j k 0 = some r →
       sp_step SHADE_INTER vcount ⟨.operation "t", ln⟩
         (SNode.intv k :: SNode.intv j :: SNode.intv i :: tl) ds
         = (if r.1 then .cont tl r.2 else .fail ERR_SYNC ln)) := by
  refine ⟨?_, ?_, ?_, ?_, ?_, ?_, ?_, ?_, ?_, ?_, ?_, ?_⟩
  · intro st hlen
    simp [sp_step, SHADE_FLAT, SHADE_INTER]
    intro hge
    exact absurd hge (by omega)
  · intro st hlen
    simp [sp_step, SHADE_FLAT, SHADE_INTER]
    intro hge
    exact absurd hge (by omega)
  · intro st hlen
    simp [sp_step, SHADE_FLAT, SHADE_INTER]
    intro hge
    exact absurd hge (by omega)
  · intro st hlen
    simp [sp_step, SHADE_FLAT, SHADE_INTER]
    intro hge
    exact absurd hge (by omega)
  · intro p3 p2 p1 p0 tl hbad
    simp [sp_step, SHADE_FLAT, SHADE_INTER]
    rw [if_neg (by omega)]
    split
    · rfl
    · rename_i hcond
      exfalso
      apply hbad
      push_neg at hcond
      exact ⟨hcond.1, hcond.2.1, hcond.2.2.1, by simpa using hcond.2.2.2⟩
  · intro p2 p1 p0 tl hbad
    simp [sp_step, SHADE_FLAT, SHADE_INTER]
    rw [if_neg (by omega)]
    split
    · rfl
    · rename_i hcond
      exfalso
      apply hbad
      push_neg at hcond
      exact ⟨hcond.1, hcond.2.1, by simpa using hcond.2.2⟩
  · intro p3 p2 p1 p0 tl hbad
    simp [sp_step, SHADE_FLAT, SHADE_INTER]
    rw [if_neg (by omega)]
    split
    · rfl
    · rename_i hcond
      exfalso
      apply hbad
      push_neg at hcond
      exact ⟨hcond.1, hcond.2.1, hcond.2.2.1, by simpa using hcond.2.2.2⟩
  · intro p2 p1 p0 tl hbad
    simp [sp_step, SHADE_FLAT, SHADE_INTER]
    rw [if_neg (by omega)]
    split
    · rfl
    · rename_i hcond
      exfalso
      apply hbad
      push_neg at hcond
      exact ⟨hcond.1, hcond.2.1, by simpa using hcond.2.2⟩
  · intro x y z c tl r hz hd
    obtain ⟨b, ds1⟩ := r
    simp [sp_step, SNode.isInt, SNode.isRgb, SNode.val, SHADE_FLAT, SHADE_INTER, hd]
    rw [if_neg (by omega)]
    rw [if_neg (by omega)]
  · intro x y z tl r hz hd
    obtain ⟨b, ds1⟩ := r
    simp [sp_step, SNode.isInt, SNode.isRgb, SNode.val, SHADE_FLAT, SHADE_INTER, hd]
    rw [if_neg (by omega)]
    rw [if_neg (by omega)]
  · intro i j k c tl r hin hd
    obtain ⟨b, ds1⟩ := r
    simp [sp_step, SNode.isInt, SNode.isRgb, SNode.val, SHADE_FLAT, SHADE_INTER, hd]
    rw [if_neg (by omega)]
    rw [if_neg (by omega)]
  · intro i j k tl r hin hd
    obtain ⟨b, ds1⟩ := r
    simp [sp_step, SNode.isInt, SNode.isRgb, SNode.val, SHADE_FLAT, SHADE_INTER, hd]
    rw [if_neg (by omega)]
    rw [if_neg (by omega)]

/-- Witness for C4 (the spec's own example): a `v` under Interpolated
shading with only 3 operands on the stack fails with StackUnderflow. -/
theorem C4_witness :
    sp_step SHADE_INTER 0 ⟨.operation "v", 8⟩
      (SNode.rgb 255 :: SNode.intv 0 :: SNode.intv 0 :: []) wDS = .fail ERR_UNDER 8 :=
  (C4_operand_arity_types 0 8 wDS).1
    (SNode.rgb 255 :: SNode.intv 0 :: SNode.intv 0 :: []) (by decide)

/-! ## Counting-scanner lemmas -/

theorem opCount_cons (k : String) (e : SEnt) (es : List SEnt) :
    opCount k (e :: es) = opCount k es + (if e.ent = .operation k then 1 else 0) := by
  simp [opCount, List.countP_cons]

theorem opCount_replicate (k : String) (n : Nat) (e : SEnt) :
    opCount k (List.replicate n e) = if e.ent = .operation k then n else 0 := by
  induction n with
  | zero => simp [opCount]
  | succ n ih =>
    rw [List.replicate_succ, opCount_cons, ih]
    split <;> omega

theorem fp_count_ok : ∀ (es : List SEnt) (vc tc : Int),
    (∀ e ∈ es, e.ent.isMetaFam = false) →
    vc + (opCount "v" es : Int) ≤ MAX_VERTEX →
    tc + (opCount "t" es : Int) ≤ MAX_TRIS →
    fp_count vc tc es = .ok (vc + (opCount "v" es : Int), tc + (opCount "t" es : Int)) := by
  intro es
  induction es with
  | nil =>
    intro vc tc _ _ _
    simp [fp_count, opCount]
  | cons e rest ih =>
    intro vc tc hm hv ht
    have hme : e.ent.isMetaFam = false := hm e (by simp)
    have hmr : ∀ x ∈ rest, x.ent.isMetaFam = false := fun x hx => hm x (by simp [hx])
    rw [fp_count, if_neg (by simp [hme])]
    rw [opCount_cons, opCount_cons] at *
    cases hee : e.ent
    case operation key =>
      rw [hee] at hv ht
      by_cases hk : key = "v"
      · subst hk
        have hvlt : vc < MAX_VERTEX := by simp at hv; omega
        have ihh := ih (vc + 1) tc hmr (by simp at hv ⊢; omega) (by simp at ht ⊢; omega)
        simp [hee, hvlt, ihh]
        omega
      · by_cases hk2 : key = "t"
        · subst hk2
          have htlt : tc < MAX_TRIS := by simp at ht; omega
          have ihh := ih vc (tc + 1) hmr (by simp at hv ⊢; omega) (by simp at ht ⊢; omega)
          simp [hee, htlt, ihh]
          omega
        · have ihh := ih vc tc hmr (by simp [hk] at hv ⊢; omega) (by simp [hk2] at ht ⊢; omega)
          simp [hee, hk, hk2, ihh]
    all_goals
      rw [hee] at hv ht
      have ihh := ih vc tc hmr (by simp at hv ⊢; omega) (by simp at ht ⊢; omega)
      simp [hee, ihh]

theorem fp_count_overflow_v : ∀ (pre : List SEnt) (v : SEnt) (post : List SEnt) (vc tc : Int),
    (∀ e ∈ pre, e.ent.isMetaFam = false) →
    v.ent = .operation "v" →
    vc + (opCount "v" pre : Int) = MAX_VERTEX →
    tc + (opCount "t" pre : Int) ≤ MAX_TRIS →
    fp_count vc tc (pre ++ v :: post) = .error (ERR_MANYV, v.line) := by
  intro pre
  induction pre with
  | nil =>
    intro v post vc tc _ hv hcv _
    simp [opCount] at hcv
    rw [List.nil_append, fp_count, if_neg (by simp [hv, Ent.isMetaFam])]
    simp [hv]
    omega
  | cons e rest ih =>
    intro v post vc tc hm hv hcv hct
    have hme : e.ent.isMetaFam = false := hm e (by simp)
    have hmr : ∀ x ∈ rest, x.ent.isMetaFam = false := fun x hx => hm x (by simp [hx])
    rw [List.cons_append, fp_count, if_neg (by simp [hme])]
    rw [opCount_cons] at hcv
    rw [opCount_cons] at hct
    cases hee : e.ent
    case operation key =>
      rw [hee] at hcv hct
      by_cases hk : key = "v"
      · subst hk
        have hvlt : vc < MAX_VERTEX := by simp at hcv; omega
        have ihh := ih v post (vc + 1) tc hmr hv (by simp at hcv ⊢; omega)
          (by simp at hct ⊢; omega)
        simp [hee, hvlt, ihh]
      · by_cases hk2 : key = "t"
        · subst hk2
          have htlt : tc < MAX_TRIS := by simp at hct; omega
          have ihh := ih v post vc (tc + 1) hmr hv (by simp at hcv ⊢; omega)
            (by simp at hct ⊢; omega)
          simp [hee, htlt, ihh]
        · have ihh := ih v post vc tc hmr hv (by simp [hk] at hcv ⊢; omega)
            (by simp [hk2] at hct ⊢; omega)
          simp [hee, hk, hk2, ihh]
    all_goals
      rw [hee] at hcv hct
      have ihh := ih v post vc tc hmr hv (by simp at hcv ⊢; omega) (by simp at hct ⊢; omega)
      simp [hee, ihh]

theorem fp_count_overflow_t : ∀ (pre : List SEnt) (t : SEnt) (post : List SEnt) (vc tc : Int),
    (∀ e ∈ pre, e.ent.isMetaFam = false) →
    t.ent = .operation "t" →
    tc + (opCount "t" pre : Int) = MAX_TRIS →
    vc + (opCount "v" pre : Int) ≤ MAX_VERTEX →
    fp_count vc tc (pre ++ t :: post) = .error (ERR_MANYT, t.line) := by
  intro pre
  induction pre with
  | nil =>
    intro t post vc tc _ ht hct _
    simp [opCount] at hct
    rw [List.nil_append, fp_count, if_neg (by simp [ht, Ent.isMetaFam])]
    simp [ht]
    omega
  | cons e rest ih =>
    intro t post vc tc hm ht hct hcv
    have hme : e.ent.isMetaFam = false := hm e (by simp)
    have hmr : ∀ x ∈ rest, x.ent.isMetaFam = false := fun x hx => hm x (by simp [hx])
    rw [List.cons_append, fp_count, if_neg (by simp [hme])]
    rw [opCount_cons] at hct
    rw [opCount_cons] at hcv
    cases hee : e.ent
    case operation key =>
      rw [hee] at hcv hct
      by_cases hk : key = "v"
      · subst hk
        have hvlt : vc < MAX_VERTEX := by simp at hcv; omega
        have ihh := ih t post (vc + 1) tc hmr ht (by simp at hct ⊢; omega)
          (by simp at hcv ⊢; omega)
        simp [hee, hvlt, ihh]
      · by_cases hk2 : key = "t"
        · subst hk2
          have htlt : tc < MAX_TRIS := by simp at hct; omega
          have ihh := ih t post vc (tc + 1) hmr ht (by simp at hct ⊢; omega)
            (by simp at hcv ⊢; omega)
          simp [hee, htlt, ihh]
        · have ihh := ih t post vc tc hmr ht (by simp [hk2] at hct ⊢; omega)
            (by simp [hk] at hcv ⊢; omega)
          simp [hee, hk, hk2, ihh]
    all_goals
      rw [hee] at hcv hct
      have ihh := ih t post vc tc hmr ht (by simp at hct ⊢; omega) (by simp at hcv ⊢; omega)
      simp [hee, ihh]

/-- Claim C2: over a script body (no metacommand-family entities; the
counting scanner rejects those separately), starting from zero
counters: a body with exactly 16384 `v` operations (and at most 16384
`t` operations) is counted successfully with `vertexCount = 16384`; a
body containing a 16385th `v` operation -- decomposed as a prefix with
exactly 16384 `v` operations followed by one more `v` -- fails with
`TooManyVertices` at that crossing operation's line (provided the `t`
count has not itself overflowed earlier, which would win by position);
and symmetrically for `t` operations and `TooManyTriangles`. -/
theorem C2_counting_bounds :
    (∀ body : List SEnt,
       (∀ e ∈ body, e.ent.isMetaFam = false) →
       (opCount "v" body : Int) = 16384 → (opCount "t" body : Int) ≤ 16384 →
       fp_count 0 0 body = .ok (16384, (opCount "t" body : Int))) ∧
    (∀ (pre : List SEnt) (v : SEnt) (post : List SEnt),
       (∀ e ∈ pre, e.ent.isMetaFam = false) →
       v.ent = .operation "v" →
       (opCount "v" pre : Int) = 16384 → (opCount "t" pre : Int) ≤ 16384 →
       fp_count 0 0 (pre ++ v :: post) = .error (ERR_MANYV, v.line)) ∧
    (∀ body : List SEnt,
       (∀ e ∈ body, e.ent.isMetaFam = false) →
       (opCount "t" body : Int) = 16384 → (opCount "v" body : Int) ≤ 16384 →
       fp_count 0 0 body = .ok ((opCount "v" body : Int), 16384)) ∧
    (∀ (pre : List SEnt) (t : SEnt) (post : List SEnt),
       (∀ e ∈ pre, e.ent.isMetaFam = false) →
       t.ent = .operation "t" →
       (opCount "t" pre : Int) = 16384 → (opCount "v" pre : Int) ≤ 16384 →
       fp_count 0 0 (pre ++ t :: post) = .error (ERR_MANYT, t.line)) := by
  refine ⟨?_, ?_, ?_, ?_⟩
  · intro body hm hv ht
    rw [fp_count_ok body 0 0 hm (by simp [MAX_VERTEX]; omega) (by simp [MAX_TRIS]; omega)]
    simp only [Except.ok.injEq, Prod.mk.injEq]
    omega
  · intro pre v post hm hv hcv hct
    exact fp_count_overflow_v pre v post 0 0 hm hv (by simp [MAX_VERTEX]; omega)
      (by simp [MAX_TRIS]; omega)
  · intro body hm ht hv
    rw [fp_count_ok body 0 0 hm (by simp [MAX_VERTEX]; omega) (by simp [MAX_TRIS]; omega)]
    simp only [Except.ok.injEq, Prod.mk.injEq]
    omega
  · intro pre t post hm ht hct hcv
    exact fp_count_overflow_t pre t post 0 0 hm ht (by simp [MAX_TRIS]; omega)
      (by simp [MAX_VERTEX]; omega)

/-- Witness for C2: 16384 `v` operations followed by one more fail with
`TooManyVertices` at the line of the 16385th. -/
theorem C2_witness :
    fp_count 0 0 (List.replicate 16384 ⟨.operation "v", 1⟩ ++ ⟨.operation "v", 9⟩ :: [])
      = .error (ERR_MANYV, 9) :=
  C2_counting_bounds.2.1 (List.replicate 16384 ⟨.operation "v", 1⟩) ⟨.operation "v", 9⟩ []
    (fun e he => by rw [List.eq_of_mem_replicate he]; rfl)
    rfl
    (by rw [opCount_replicate]; simp)
    (by rw [opCount_replicate]; simp)

/-! ## Second-pass lemmas -/

set_option maxHeartbeats 1000000 in
theorem sp_step_cont_store (shade vcount : Int) (e : SEnt) (st st1 : List SNode)
    (ds ds1 : DStore) (h : sp_step shade vcount e st ds = .cont st1 ds1) :
    ds1.vcount = ds.vcount ∧ ds1.tcount = ds.tcount ∧ ds1.init = ds.init ∧
    ds1.ready = ds.ready ∧
    (if e.ent = Ent.operation "v" then ds1.vwrite = ds.vwrite + 1 ∧ ds.vwrite < ds.vcount
     else ds1.vwrite = ds.vwrite) ∧
    (if e.ent = Ent.operation "t" then ds1.twrite = ds.twrite + 1 ∧ ds.twrite < ds.tcount
     else ds1.twrite = ds.twrite) := by
  obtain ⟨eent, eline⟩ := e
  cases eent <;> simp only [sp_step] at h <;> (repeat' split at h) <;>
    (try exact (StepOut.noConfusion h)) <;>
    (injection h with hst hds; subst hst; subst hds)
  · simp
  · simp
  · simp
  · simp
  · simp
  · simp
  · obtain ⟨f1, f2, f3, f4, f5, f6, hT, hF⟩ :=
      declare_vert_some _ _ _ _ _ _ _ (by assumption)
    obtain ⟨hw, hlt⟩ := hT (by assumption)
    simp_all
  · obtain ⟨f1, f2, f3, f4, f5, f6, hT, hF⟩ :=
      declare_vert_some _ _ _ _ _ _ _ (by assumption)
    obtain ⟨hw, hlt⟩ := hT (by assumption)
    simp_all
  · obtain ⟨g1, g2, g3, g4, g5, g6, gT, gF⟩ :=
      declare_tri_some _ _ _ _ _ _ _ (by assumption)
    obtain ⟨gw, glt⟩ := gT (by assumption)
    simp_all
  · obtain ⟨g1, g2, g3, g4, g5, g6, gT, gF⟩ :=
      declare_tri_some _ _ _ _ _ _ _ (by assumption)
    obtain ⟨gw, glt⟩ := gT (by assumption)
    simp_all

theorem check_decl_fst (ds : DStore) (hrd : ds.ready = false) :
    (check_decl ds).1 = true ↔
      (ds.init = true ∧ ds.vcount ≤ ds.vwrite ∧ ds.tcount ≤ ds.twrite) := by
  unfold check_decl
  rw [if_neg (by simp [hrd])]
  split_ifs with h1 h2 h3 <;> simp_all

theorem check_decl_ready (ds : DStore) (h : ds.ready = true) :
    (check_decl ds).1 = true := by
  unfold check_decl
  rw [if_pos h]

set_option maxHeartbeats 1000000 in
theorem sp_loop_success (shade vcount : Int) : ∀ (es : List SEnt) (st : List SNode)
    (ds : DStore) (r : SPResult),
    ds.vwrite ≤ ds.vcount → ds.twrite ≤ ds.tcount → ds.ready = false →
    sp_loop shade vcount es st ds = some r → r.status = true →
    r.store.vwrite = ds.vwrite + (opCount "v" es : Int) ∧
    r.store.twrite = ds.twrite + (opCount "t" es : Int) ∧
    r.store.vcount = ds.vcount ∧ r.store.tcount = ds.tcount ∧
    r.store.vwrite = r.store.vcount ∧ r.store.twrite = r.store.tcount ∧
    (check_decl r.store).1 = true := by
  intro es
  induction es with
  | nil =>
    intro st ds r hv ht hrd hrun hs
    rw [sp_loop] at hrun
    rcases hcd : check_decl ds with ⟨ok, ds1⟩
    rw [hcd] at hrun
    simp only [] at hrun
    cases ok
    · rw [if_pos (by simp)] at hrun
      injection hrun with hr
      subst hr
      simp at hs
    · rw [if_neg (by simp)] at hrun
      by_cases hst : st.length ≠ 0
      · rw [if_pos hst] at hrun
        injection hrun with hr
        subst hr
        simp at hs
      · rw [if_neg hst] at hrun
        injection hrun with hr
        subst hr
        have hfst : (check_decl ds).1 = true := by rw [hcd]
        have hge := (check_decl_fst ds hrd).mp hfst
        have hsnd : (check_decl ds).2 = ds1 := by rw [hcd]
        rcases check_decl_cases ds with h2 | ⟨h2, _, _, _⟩
        · rw [h2] at hsnd
          subst hsnd
          refine ⟨by simp [opCount], by simp [opCount], rfl, rfl, ?_, ?_, ?_⟩
          · show ds.vwrite = ds.vcount
            omega
          · show ds.twrite = ds.tcount
            omega
          · exact (check_decl_fst ds hrd).mpr hge
        · rw [h2] at hsnd
          subst hsnd
          refine ⟨by simp [opCount], by simp [opCount], rfl, rfl, ?_, ?_, ?_⟩
          · show ds.vwrite = ds.vcount
            omega
          · show ds.twrite = ds.tcount
            omega
          · exact check_decl_ready _ rfl
  | cons e rest ih =>
    intro st ds r hv ht hrd hrun hs
    rw [sp_loop] at hrun
    cases hstep : sp_step shade vcount e st ds
    case fail err ln =>
      rw [hstep] at hrun
      injection hrun with hr
      subst hr
      simp at hs
    case crash =>
      rw [hstep] at hrun
      exact (Option.noConfusion hrun)
    case cont st2 ds2 =>
      rw [hstep] at hrun
      obtain ⟨e1, e2, e3, e4, e5, e6⟩ := sp_step_cont_store _ _ _ _ _ _ _ hstep
      have hv2 : ds2.vwrite ≤ ds2.vcount := by
        by_cases hev : e.ent = Ent.operation "v"
        · rw [if_pos hev] at e5; omega
        · rw [if_neg hev] at e5; omega
      have ht2 : ds2.twrite ≤ ds2.tcount := by
        by_cases het : e.ent = Ent.operation "t"
        · rw [if_pos het] at e6; omega
        · rw [if_neg het] at e6; omega
      have hrd2 : ds2.ready = false := by rw [e4]; exact hrd
      have IH := ih st2 ds2 r hv2 ht2 hrd2 hrun hs
      rw [opCount_cons, opCount_cons]
      by_cases hev : e.ent = Ent.operation "v"
      · rw [if_pos hev] at e5
        rw [if_neg (by rw [hev]; simp)] at e6
        rw [if_pos hev, if_neg (by rw [hev]; simp)]
        push_cast
        obtain ⟨i1, i2, i3, i4, i5, i6, i7⟩ := IH
        exact ⟨by omega, by omega, by omega, by omega, i5, i6, i7⟩
      · by_cases het : e.ent = Ent.operation "t"
        · rw [if_neg hev] at e5
          rw [if_pos het] at e6
          rw [if_neg hev, if_pos het]
          push_cast
          obtain ⟨i1, i2, i3, i4, i5, i6, i7⟩ := IH
          exact ⟨by omega, by omega, by omega, by omega, i5, i6, i7⟩
        · rw [if_neg hev] at e5
          rw [if_neg het] at e6
          rw [if_neg hev, if_neg het]
          push_cast
          obtain ⟨i1, i2, i3, i4, i5, i6, i7⟩ := IH
          exact ⟨by omega, by omega, by omega, by omega, i5, i6, i7⟩

theorem begin_data_fields (vc tc : Int) (ds : DStore) (h : begin_data vc tc = some ds) :
    ds.init = true ∧ ds.vcount = vc ∧ ds.tcount = tc ∧ ds.vwrite = 0 ∧ ds.twrite = 0 ∧
    ds.ready = false ∧ 0 ≤ vc ∧ vc ≤ MAX_VERTEX ∧ 0 ≤ tc ∧ tc ≤ MAX_TRIS := by
  unfold begin_data at h
  split_ifs at h with hc
  obtain rfl := Option.some.inj h
  exact ⟨rfl, rfl, rfl, rfl, rfl, rfl, by omega, by omega, by omega, by omega⟩

/-- Claim C1: for every script on which `first_pass` succeeds and
`second_pass` (on the same rewound entity stream, with the store
allocated from the pass-1 counts) then succeeds, the pass-1
`vertexCount`/`triangleCount` equal exactly the number of `v`/`t`
operation declarations pass 2 executed -- on success pass 2 executes
one store write per `v`/`t` operation entity of the stream, so that
number is `opCount` of the stream -- and `check_decl` (the store's
completion predicate) reports true on the final store. -/
theorem C1_pass_agreement (src : Source) (ds0 : DStore) (r : SPResult)
    (h1 : (first_pass src).status = true)
    (hb : begin_data (first_pass src).psi.vcount (first_pass src).psi.tcount = some ds0)
    (h2 : second_pass src (first_pass src).psi.shade (first_pass src).psi.vcount ds0 = some r)
    (h3 : r.status = true) :
    (opCount "v" src.ents : Int) = (first_pass src).psi.vcount ∧
    (opCount "t" src.ents : Int) = (first_pass src).psi.tcount ∧
    (check_decl r.store).1 = true := by
  obtain ⟨b1, b2, b3, b4, b5, b6, b7, b8, b9, b10⟩ := begin_data_fields _ _ _ hb
  unfold second_pass at h2
  split_ifs at h2 with hsh
  have SL := sp_loop_success ((first_pass src).psi.shade) ((first_pass src).psi.vcount)
    src.ents [] ds0 r (by omega) (by omega) b6 h2 h3
  obtain ⟨s1, s2, s3, s4, s5, s6, s7⟩ := SL
  exact ⟨by omega, by omega, s7⟩

/-- Witness for C1: the worked example of the spec (3 vertices, 1
triangle, flat shading). -/
theorem C1_witness :
    (opCount "v" exSrc.ents : Int) = (first_pass exSrc).psi.vcount ∧
    (opCount "t" exSrc.ents : Int) = (first_pass exSrc).psi.tcount ∧
    (check_decl exRes.store).1 = true :=
  C1_pass_agreement exSrc exDS exRes
    (by rw [first_pass_exSrc])
    (by rw [first_pass_exSrc]; decide)
    (by rw [first_pass_exSrc]; decide)
    (by decide)


theorem digitChar_range (d : Nat) (hd : d < 10) :
    ¬ (digitChar d < '0' ∨ '9' < digitChar d) := by
  interval_cases d <;> decide

theorem digitChar_val (d : Nat) (hd : d < 10) :
    ((digitChar d).toNat : Int) - ('0'.toNat : Int) = (d : Int) := by
  interval_cases d <;> decide

theorem digitChar_not_sign (d : Nat) (hd : d < 10) :
    digitChar d ≠ '+' ∧ digitChar d ≠ '-' := by
  interval_cases d <;> exact ⟨by decide, by decide⟩

theorem accDec_cons (d : Nat) (ds : List Nat) (acc : Int) :
    accDec (d :: ds) acc = accDec ds (acc * 10 + (d : Int)) := rfl

theorem accDec_append_last (ds : List Nat) (d : Nat) (acc : Int) :
    accDec (ds ++ [d]) acc = (accDec ds acc) * 10 + (d : Int) := by
  simp [accDec, List.foldl_append]

theorem accDec_ge (ds : List Nat) : ∀ acc : Int, 0 ≤ acc → acc ≤ accDec ds acc := by
  induction ds with
  | nil => intro acc _; simp [accDec]
  | cons d ds ih =>
    intro acc hacc
    rw [accDec_cons]
    have hnext := ih (acc * 10 + (d : Int)) (by omega)
    omega

theorem piLoop_digits (ds : List Nat) : ∀ acc : Int,
    (∀ d ∈ ds, d < 10) → 0 ≤ acc → accDec ds acc ≤ INT32_MAX →
    piLoop (ds.map digitChar) acc = some (accDec ds acc) := by
  induction ds with
  | nil =>
    intro acc _ _ _
    simp [piLoop, accDec]
  | cons d ds ih =>
    intro acc hd hacc hmax
    have hd10 : d < 10 := hd d (by simp)
    have hrest : ∀ x ∈ ds, x < 10 := fun x hx => hd x (by simp [hx])
    have hM : INT32_MAX = 2147483647 := rfl
    have hdiv : (INT32_MAX : Int) / 10 = 214748364 := by decide
    have hstep : accDec (d :: ds) acc = accDec ds (acc * 10 + (d : Int)) := rfl
    have hchain : acc * 10 + (d : Int) ≤ accDec ds (acc * 10 + (d : Int)) :=
      accDec_ge ds _ (by omega)
    rw [List.map_cons]
    rw [piLoop]
    rw [if_neg (digitChar_range d hd10), digitChar_val d hd10]
    rw [if_pos (by omega : acc ≤ INT32_MAX / 10)]
    rw [if_pos (by omega : acc * 10 ≤ INT32_MAX - (d : Int))]
    rw [hstep]
    exact ih (acc * 10 + (d : Int)) hrest (by omega) (by rw [← hstep]; exact hmax)

theorem natDigs_lt10 : ∀ n : Nat, ∀ d ∈ natDigs n, d < 10 := by
  intro n
  induction n using natDigs.induct with
  | case1 n h =>
    intro d hd
    rw [natDigs, dif_pos h] at hd
    simp at hd
    omega
  | case2 n h ih =>
    intro d hd
    rw [natDigs, dif_neg h] at hd
    rw [List.mem_append] at hd
    rcases hd with hd | hd
    · exact ih d hd
    · simp at hd
      omega

theorem natDigs_val : ∀ n : Nat, accDec (natDigs n) 0 = (n : Int) := by
  intro n
  induction n using natDigs.induct with
  | case1 n h =>
    rw [natDigs, dif_pos h]
    simp [accDec]
  | case2 n h ih =>
    rw [natDigs, dif_neg h, accDec_append_last, ih]
    omega

theorem natDigs_ne_nil (n : Nat) : natDigs n ≠ [] := by
  rw [natDigs]
  split <;> simp

theorem parseInt_digits (n : Nat) (hn : (n : Int) ≤ INT32_MAX) :
    parseInt (String.mk ((natDigs n).map digitChar)) = some (n : Int) := by
  rcases hnd : natDigs n with _ | ⟨d0, rest⟩
  · exact absurd hnd (natDigs_ne_nil n)
  · have hd0 : d0 < 10 := natDigs_lt10 n d0 (by rw [hnd]; simp)
    obtain ⟨hp1, hp2⟩ := digitChar_not_sign d0 hd0
    have hmax : accDec (natDigs n) 0 ≤ INT32_MAX := by rw [natDigs_val]; exact hn
    have hpl := piLoop_digits (natDigs n) 0 (natDigs_lt10 n) (le_refl 0) hmax
    rw [natDigs_val] at hpl
    rw [hnd] at hpl
    rw [List.map_cons] at hpl
    unfold parseInt
    simp [hp1, hp2, hpl]

theorem parseInt_neg_digits (n : Nat) (hn : (n : Int) ≤ INT32_MAX) :
    parseInt ("-" ++ String.mk ((natDigs n).map digitChar)) = some (-(n : Int)) := by
  have hdata : ("-" ++ String.mk ((natDigs n).map digitChar)).data
      = '-' :: (natDigs n).map digitChar := by
    rw [String.data_append]
    rfl
  have hne : (natDigs n).map digitChar ≠ [] := by simp [natDigs_ne_nil n]
  have hmax : accDec (natDigs n) 0 ≤ INT32_MAX := by rw [natDigs_val]; exact hn
  have hpl := piLoop_digits (natDigs n) 0 (natDigs_lt10 n) (le_refl 0) hmax
  rw [natDigs_val] at hpl
  unfold parseInt
  simp [hdata, hpl, hne]

/-- Claim C5: parseInt inverts decimal formatting for every int32 value except
INT32_MIN: for every v with INT32_MIN <= v <= INT32_MAX and v != INT32_MIN,
parsing the standard decimal rendering of v (decFormat) succeeds and returns v;
and for the rendering of INT32_MIN itself, parseInt fails, because the
magnitude 2147483648 overflows the positive-space accumulation before
negation. -/
theorem C5_parseInt_round_trip :
    (∀ v : Int, INT32_MIN ≤ v → v ≤ INT32_MAX → v ≠ INT32_MIN →
       parseInt (decFormat v) = some v) ∧
    parseInt (decFormat INT32_MIN) = none := by
  constructor
  · intro v h1 h2 h3
    have hM : INT32_MAX = 2147483647 := rfl
    have hMin : INT32_MIN = -2147483648 := rfl
    by_cases hv : v < 0
    · rw [decFormat, if_pos hv]
      have habs : ((v.natAbs : Nat) : Int) = -v := by
        rcases Int.natAbs_eq v with he | he <;> omega
      have hle : ((v.natAbs : Nat) : Int) ≤ INT32_MAX := by omega
      rw [parseInt_neg_digits v.natAbs hle, habs]
      simp
    · rw [decFormat, if_neg hv]
      have habs : ((v.natAbs : Nat) : Int) = v := by
        rcases Int.natAbs_eq v with he | he <;> omega
      have hle : ((v.natAbs : Nat) : Int) ≤ INT32_MAX := by omega
      rw [parseInt_digits v.natAbs hle, habs]
  · rw [decFormat, if_pos (by decide)]
    rw [show INT32_MIN.natAbs = 2147483648 from rfl]
    have e0 : natDigs 2 = [2] := by rw [natDigs, dif_pos (by norm_num)]
    have e1 : natDigs 21 = [2, 1] := by
      rw [natDigs, dif_neg (by norm_num)]; norm_num [e0]
    have e2 : natDigs 214 = [2, 1, 4] := by
      rw [natDigs, dif_neg (by norm_num)]; norm_num [e1]
    have e3 : natDigs 2147 = [2, 1, 4, 7] := by
      rw [natDigs, dif_neg (by norm_num)]; norm_num [e2]
    have e4 : natDigs 21474 = [2, 1, 4, 7, 4] := by
      rw [natDigs, dif_neg (by norm_num)]; norm_num [e3]
    have e5 : natDigs 214748 = [2, 1, 4, 7, 4, 8] := by
      rw [natDigs, dif_neg (by norm_num)]; norm_num [e4]
    have e6 : natDigs 2147483 = [2, 1, 4, 7, 4, 8, 3] := by
      rw [natDigs, dif_neg (by norm_num)]; norm_num [e5]
    have e7 : natDigs 21474836 = [2, 1, 4, 7, 4, 8, 3, 6] := by
      rw [natDigs, dif_neg (by norm_num)]; norm_num [e6]
    have e8 : natDigs 214748364 = [2, 1, 4, 7, 4, 8, 3, 6, 4] := by
      rw [natDigs, dif_neg (by norm_num)]; norm_num [e7]
    have hD : natDigs 2147483648 = [2, 1, 4, 7, 4, 8, 3, 6, 4, 8] := by
      rw [natDigs, dif_neg (by norm_num)]; norm_num [e8]
    rw [hD]
    decide

theorem C5_witness :
    (INT32_MIN ≤ 2147483647 ∧ (2147483647 : Int) ≤ INT32_MAX ∧ (2147483647 : Int) ≠ INT32_MIN) ∧
    parseInt (decFormat 2147483647) = some 2147483647 :=
  ⟨⟨by decide, by decide, by decide⟩,
   C5_parseInt_round_trip.1 2147483647 (by decide) (by decide) (by decide)⟩
